import Mathlib

/-!
Verification of the acquisition core of the FPGA data-logger repository:
the circular sample buffer of `src/data_logger.py`, the register protocol
of `src/data_logger.py` and `src/main.py`, and the startup control flow of
`src/main.py`.

Python functions are shallowly embedded as Lean functions.  The mutable
module globals `times`, `zs`, `index` of `data_logger.py` become an
explicit `LoggerState` threaded through the operations; timestamps and
sample values (Python/numpy float64) are modelled as rationals; the SPI
bus is modelled as a response function from the transmitted byte list to
the received byte list of the same length.
-/

namespace DataLogger

/-- Source constant `WINDOW_SIZE = 500` of `src/data_logger.py` line 12. -/
def WINDOW_SIZE : Nat := 500

/-- The module-level mutable state of `src/data_logger.py`: the two backing
arrays `times` and `zs` (each of length `WINDOW_SIZE`, zero initialised)
and the write cursor `index`. -/
structure LoggerState where
  times : List ℚ
  zs : List ℚ
  index : Nat

/-- Initial state: `index = 0`, `zs = np.zeros(N)`, `times = np.zeros(N)`
(`src/data_logger.py` lines 15-17), with the capacity `N` kept as a
parameter (`N = WINDOW_SIZE` in the source). -/
def initState (N : Nat) : LoggerState :=
  { times := List.replicate N 0, zs := List.replicate N 0, index := 0 }

/-- `update_buffers(times, zs, t, z)` of `src/data_logger.py` lines 43-47:
`times[index] = t; zs[index] = z; index = (index + 1) % WINDOW_SIZE`. -/
def update_buffers (N : Nat) (s : LoggerState) (t z : ℚ) : LoggerState :=
  { times := s.times.set s.index t
    zs := s.zs.set s.index z
    index := (s.index + 1) % N }

/-- `read_buffer(buf)` of `src/data_logger.py` lines 49-51:
`np.concatenate((buf[index:], buf[:index]))`. -/
def read_buffer (s : LoggerState) (buf : List ℚ) : List ℚ :=
  buf.drop s.index ++ buf.take s.index

/-- A sequence of appends, each one a `(t, z)` pair passed to
`update_buffers`, folded left in order of arrival. -/
def appendAll (N : Nat) (s : LoggerState) (ps : List (ℚ × ℚ)) : LoggerState :=
  ps.foldl (fun st p => update_buffers N st p.1 p.2) s

/-- Python indexing `l[i]` including the negative-index convention
(`l[-1]` is the last element); out-of-range reads default to `0` (they do
not occur in reachable states). -/
def pyGet (l : List ℚ) (i : Int) : ℚ :=
  if i < 0 then l.getD (l.length - (-i).toNat) 0 else l.getD i.toNat 0

/-- The rate estimate of `src/data_logger.py` line 78 (and line 104):
`sample_rate = WINDOW_SIZE / (times[index-1] - times[index])`.
`none` models the divide-by-zero case (numpy float64 yields an infinity
with a runtime warning rather than a finite rate; no finite rational
exists), `some r` the ordinary finite quotient. -/
def sample_rate (N : Nat) (s : LoggerState) : Option ℚ :=
  let denom := pyGet s.times ((s.index : Int) - 1) - pyGet s.times (s.index : Int)
  if denom = 0 then none else some ((N : ℚ) / denom)

/-- One step of the cursor rotation: overwriting the slot at the cursor
and advancing the cursor turns the chronological rotation `r` into
`r.drop 1 ++ [t]` (the oldest element leaves, the new one enters). -/
lemma rot_set_step (buf : List ℚ) (i : Nat) (t : ℚ) (N : Nat)
    (hlen : buf.length = N) (hi : i < N) :
    (buf.set i t).drop ((i + 1) % N) ++ (buf.set i t).take ((i + 1) % N) =
      (buf.drop i ++ buf.take i).drop 1 ++ [t] := by
  have hi' : i < buf.length := by omega
  have hset : buf.set i t = buf.take i ++ t :: buf.drop (i + 1) :=
    List.set_eq_take_cons_drop t hi'
  have htake : (buf.take i).length = i := by
    simp [List.length_take]; omega
  have hrhs : (buf.drop i ++ buf.take i).drop 1 ++ [t] =
      buf.drop (i + 1) ++ (buf.take i ++ [t]) := by
    have h1 : (1 : Nat) ≤ (buf.drop i).length := by
      simp [List.length_drop]; omega
    rw [List.drop_append_of_le_length h1, List.drop_drop, List.append_assoc]
  rw [hrhs, hset]
  by_cases hcase : i + 1 < N
  · have hmod : (i + 1) % N = i + 1 := Nat.mod_eq_of_lt hcase
    rw [hmod]
    have hdrop : (buf.take i ++ t :: buf.drop (i + 1)).drop (i + 1) =
        buf.drop (i + 1) := by
      have : i + 1 = (buf.take i).length + 1 := by omega
      rw [this, List.drop_append]
      simp
    have htk : (buf.take i ++ t :: buf.drop (i + 1)).take (i + 1) =
        buf.take i ++ [t] := by
      have : i + 1 = (buf.take i).length + 1 := by omega
      rw [this, List.take_append]
      simp
    rw [hdrop, htk]
  · have hiN : i + 1 = N := by omega
    have hmod : (i + 1) % N = 0 := by rw [hiN, Nat.mod_self]
    have hnil : buf.drop (i + 1) = [] := by
      apply List.drop_eq_nil_of_le; omega
    rw [hmod, hnil]
    simp

/-- Arithmetic shape of the valid window after one more append: the
rotation `replicate (N-m) 0 ++ ts.drop (m-N)` evolves by dropping its
head and appending the new timestamp. -/
lemma window_step (N m : Nat) (hN : 0 < N) (ts : List ℚ) (hm : ts.length = m) (t : ℚ) :
    (List.replicate (N - m) (0 : ℚ) ++ ts.drop (m - N)).drop 1 ++ [t] =
      List.replicate (N - (m + 1)) 0 ++ (ts ++ [t]).drop (m + 1 - N) := by
  by_cases hcase : m < N
  · have h0 : m - N = 0 := by omega
    have h1 : m + 1 - N = 0 := by omega
    have h2 : (1 : Nat) ≤ (List.replicate (N - m) (0 : ℚ)).length := by
      simp; omega
    rw [h0, h1, List.drop_zero, List.drop_append_of_le_length h2]
    rw [List.drop_replicate]
    have h3 : N - m - 1 = N - (m + 1) := by omega
    rw [h3, List.append_assoc, List.drop_zero]
  · have h0 : N - m = 0 := by omega
    have h1 : N - (m + 1) = 0 := by omega
    rw [h0, h1]
    simp only [List.replicate_zero, List.nil_append]
    rw [List.drop_drop]
    have h2 : m + 1 - N ≤ ts.length := by omega
    rw [List.drop_append_of_le_length h2]
    have h3 : m - N + 1 = m + 1 - N := by omega
    rw [h3]

/-- Invariant of the logger state after any sequence of appends starting
from the fresh state: array lengths are preserved, the cursor equals the
append count mod `N`, and `read_buffer` of either array is `N - m` zero
slots followed by the last `min m N` appended entries in arrival order. -/
lemma appendAll_inv (N : Nat) (hN : 0 < N) (ps : List (ℚ × ℚ)) :
    (appendAll N (initState N) ps).times.length = N ∧
    (appendAll N (initState N) ps).zs.length = N ∧
    (appendAll N (initState N) ps).index = ps.length % N ∧
    read_buffer (appendAll N (initState N) ps) (appendAll N (initState N) ps).times
      = List.replicate (N - ps.length) 0 ++ (ps.map Prod.fst).drop (ps.length - N) ∧
    read_buffer (appendAll N (initState N) ps) (appendAll N (initState N) ps).zs
      = List.replicate (N - ps.length) 0 ++ (ps.map Prod.snd).drop (ps.length - N) := by
  induction ps using List.reverseRecOn with
  | nil =>
      refine ⟨by simp [appendAll, initState], by simp [appendAll, initState],
        by simp [appendAll, initState], ?_, ?_⟩ <;>
        simp [appendAll, initState, read_buffer]
  | append_singleton qs p ih =>
      obtain ⟨iht, ihz, ihi, ihrt, ihrz⟩ := ih
      have happ : appendAll N (initState N) (qs ++ [p]) =
          update_buffers N (appendAll N (initState N) qs) p.1 p.2 := by
        simp [appendAll, List.foldl_append]
      set s := appendAll N (initState N) qs with hs
      have hidx : s.index < N := by rw [ihi]; exact Nat.mod_lt _ hN
      refine ⟨?_, ?_, ?_, ?_, ?_⟩
      · rw [happ]; simp [update_buffers, iht]
      · rw [happ]; simp [update_buffers, ihz]
      · rw [happ]
        simp only [update_buffers, List.length_append, List.length_singleton]
        rw [ihi, Nat.mod_add_mod]
      · rw [happ]
        simp only [update_buffers, read_buffer]
        rw [rot_set_step s.times s.index p.1 N iht hidx]
        have := window_step N qs.length hN (qs.map Prod.fst) (by simp) p.1
        rw [← read_buffer]
        rw [ihrt]
        simpa using this
      · rw [happ]
        simp only [update_buffers, read_buffer]
        rw [rot_set_step s.zs s.index p.2 N ihz hidx]
        have := window_step N qs.length hN (qs.map Prod.snd) (by simp) p.2
        rw [← read_buffer]
        rw [ihrz]
        simpa using this

/-- Reading any slot of a zeroed array yields `0`. -/
lemma getD_replicate_zero (N i : Nat) : (List.replicate N (0 : ℚ)).getD i 0 = 0 := by
  rw [List.getD_eq_getElem?_getD, List.getElem?_replicate]
  split <;> rfl

/-- The `snapshot` operation of the acquisition loop, as a state
transformer: `read_buffer` (`src/data_logger.py` lines 49-51) contains no
assignment, so the state component is returned unchanged and the result is
the freshly built rotation of each backing array. -/
def snapshot_step (s : LoggerState) : LoggerState × (List ℚ × List ℚ) :=
  (s, (read_buffer s s.times, read_buffer s s.zs))

/-- Claim C2: for every sequence of `N + k` (`k ≥ 0`) appends with strictly
increasing timestamps into a capacity-`N` buffer, the snapshot has exactly
`min (N + k) N` samples and its timestamps are strictly increasing. -/
theorem c2_snapshot_count_and_order (N k : Nat) (hN : 0 < N) (ps : List (ℚ × ℚ))
    (hlen : ps.length = N + k)
    (hsorted : (ps.map Prod.fst).Sorted (· < ·)) :
    (read_buffer (appendAll N (initState N) ps)
        (appendAll N (initState N) ps).times).length = min (N + k) N ∧
    (read_buffer (appendAll N (initState N) ps)
        (appendAll N (initState N) ps).times).Sorted (· < ·) := by
  obtain ⟨ht, hz, hi, hrt, hrz⟩ := appendAll_inv N hN ps
  rw [hrt, hlen]
  have h0 : N - (N + k) = 0 := by omega
  have h1 : N + k - N = k := by omega
  rw [h0, h1]
  simp only [List.replicate_zero, List.nil_append]
  constructor
  · rw [List.length_drop, List.length_map, hlen]
    omega
  · exact List.Pairwise.sublist (List.drop_sublist _ _) hsorted

/-- Witness for C2 at `N = 2`, `k = 1`, appends `(1,0),(2,0),(3,0)`. -/
theorem c2_snapshot_count_and_order_witness :
    (read_buffer (appendAll 2 (initState 2) [(1, 0), (2, 0), (3, 0)])
        (appendAll 2 (initState 2) [(1, 0), (2, 0), (3, 0)]).times).length = min (2 + 1) 2 ∧
    (read_buffer (appendAll 2 (initState 2) [(1, 0), (2, 0), (3, 0)])
        (appendAll 2 (initState 2) [(1, 0), (2, 0), (3, 0)]).times).Sorted (· < ·) :=
  c2_snapshot_count_and_order 2 1 (by decide) [(1, 0), (2, 0), (3, 0)] (by decide)
    (by norm_num [List.sorted_cons])

/-- Claim C3 counterexample: after one append of timestamp `1` into a
capacity-3 buffer, `read_buffer` returns all three physical slots
`[0, 0, 1]` (two zero-initialised slots first), not "exactly the first
`j` samples" `[1]` that the claim asserts for the pre-wrap regime. -/
theorem c3_prewrap_counterexample :
    read_buffer (appendAll 3 (initState 3) [(1, 10)])
        (appendAll 3 (initState 3) [(1, 10)]).times = [0, 0, 1] ∧
    read_buffer (appendAll 3 (initState 3) [(1, 10)])
        (appendAll 3 (initState 3) [(1, 10)]).times ≠ [1] := by
  refine ⟨rfl, fun h => ?_⟩
  have hlen := congrArg List.length h
  simp [read_buffer, appendAll, update_buffers, initState] at hlen

/-- Claim C3 as amended: after `j < N` appends the snapshot is the full
`N`-slot rotation, i.e. `N - j` zero-initialised slots followed by the
first `j` samples in insertion order; after at least one wrap it is the
`N` physical slots rotated by the cursor so the oldest comes first (the
last `N` appended timestamps in arrival order). -/
theorem c3_amended_rotation (N : Nat) (hN : 0 < N) (ps : List (ℚ × ℚ)) :
    read_buffer (appendAll N (initState N) ps) (appendAll N (initState N) ps).times
      = (if ps.length < N
          then List.replicate (N - ps.length) 0 ++ ps.map Prod.fst
          else (ps.map Prod.fst).drop (ps.length - N)) ∧
    (appendAll N (initState N) ps).index = ps.length % N := by
  obtain ⟨ht, hz, hi, hrt, hrz⟩ := appendAll_inv N hN ps
  refine ⟨?_, hi⟩
  rw [hrt]
  by_cases h : ps.length < N
  · rw [if_pos h]
    have h0 : ps.length - N = 0 := by omega
    rw [h0, List.drop_zero]
  · rw [if_neg h]
    have h0 : N - ps.length = 0 := by omega
    rw [h0]
    simp

/-- Witness for the amended C3 at `N = 3` with a single append. -/
theorem c3_amended_rotation_witness :
    read_buffer (appendAll 3 (initState 3) [(1, 10)])
        (appendAll 3 (initState 3) [(1, 10)]).times = [0, 0, 1] ∧
    (appendAll 3 (initState 3) [(1, 10)]).index = 1 := by
  have h := c3_amended_rotation 3 (by decide) [(1, 10)]
  exact ⟨by rw [h.1]; rfl, h.2⟩

/-- Claim C9: appending timestamps `[1,2,3,4,5]` (values `10..50`) into a
capacity-3 buffer yields the snapshot `[3, 4, 5]` in that order. -/
theorem c9_roundtrip_capacity3 :
    read_buffer (appendAll 3 (initState 3) [(1, 10), (2, 20), (3, 30), (4, 40), (5, 50)])
        (appendAll 3 (initState 3) [(1, 10), (2, 20), (3, 30), (4, 40), (5, 50)]).times
      = [3, 4, 5] := rfl

/-- Claim C1: the source's rate formula (line 78) divides by the delta of
the two physical slots adjacent to the write cursor, not by the span of
the valid window.  After appending timestamps `1, 2` into a capacity-3
buffer (two samples with distinct timestamps, no wrap yet), the code
yields `3 / (times[1] - times[2]) = 3 / (2 - 0) = 3/2`, whereas the
claimed formula `N / (newest - oldest) = 3 / (2 - 1) = 3` differs. -/
theorem c1_rate_uses_cursor_adjacent_slots :
    sample_rate 3 (appendAll 3 (initState 3) [(1, 10), (2, 20)]) = some (3 / 2) ∧
    (3 : ℚ) / 2 ≠ 3 / (2 - 1) := by
  constructor
  · show (if (2 - 0 : ℚ) = 0 then (none : Option ℚ) else some (((3 : Nat) : ℚ) / (2 - 0)))
        = some (3 / 2)
    norm_num
  · norm_num

/-- Claim C4: the code defines no sentinel.  On a fresh buffer the
denominator `times[index-1] - times[index]` is `0 - 0 = 0` and the
division faults (`none`; numpy emits an infinity with a runtime warning,
not a NaN sentinel); after a single sample with timestamp `t ≠ 0` the code
returns the ordinary finite value `N / t` instead of a sentinel. -/
theorem c4_fresh_buffer_rate_division (N : Nat) (t : ℚ) (hN : 2 ≤ N) (ht : t ≠ 0) :
    sample_rate N (initState N) = none ∧
    sample_rate N (update_buffers N (initState N) t 0) = some ((N : ℚ) / t) := by
  constructor
  · simp only [sample_rate, initState, pyGet]
    norm_num [getD_replicate_zero]
  · have hset : (List.replicate N (0 : ℚ)).set 0 t = t :: List.replicate (N - 1) 0 := by
      cases N with
      | zero => omega
      | succ n => simp [List.replicate_succ]
    have hmod : (0 + 1) % N = 1 := Nat.mod_eq_of_lt (by omega)
    simp only [sample_rate, update_buffers, initState, hset, hmod, pyGet]
    norm_num [getD_replicate_zero, ht]

/-- Witness for C4 at the source capacity `N = 500` and timestamp `2`. -/
theorem c4_fresh_buffer_rate_division_witness :
    sample_rate 500 (initState 500) = none ∧
    sample_rate 500 (update_buffers 500 (initState 500) 2 0) = some ((500 : ℚ) / 2) :=
  c4_fresh_buffer_rate_division 500 2 (by decide) (by norm_num)

/-- Claim C10: `update_buffers` writes `t` and `z` at the cursor slot of
the two backing arrays, leaves every other slot of both arrays unchanged,
and advances the cursor by exactly one modulo `N`; the snapshot step
returns the state unchanged together with freshly built rotations. -/
theorem c10_append_frame (N : Nat) (s : LoggerState) (t z : ℚ)
    (ht : s.times.length = N) (hz : s.zs.length = N) (hi : s.index < N) :
    (update_buffers N s t z).times.getD s.index 0 = t ∧
    (update_buffers N s t z).zs.getD s.index 0 = z ∧
    (∀ i, i ≠ s.index →
      (update_buffers N s t z).times.getD i 0 = s.times.getD i 0 ∧
      (update_buffers N s t z).zs.getD i 0 = s.zs.getD i 0) ∧
    (update_buffers N s t z).index = (s.index + 1) % N ∧
    snapshot_step s = (s, (s.times.drop s.index ++ s.times.take s.index,
      s.zs.drop s.index ++ s.zs.take s.index)) := by
  refine ⟨?_, ?_, ?_, rfl, rfl⟩
  · simp only [update_buffers]
    rw [List.getD_eq_getElem?_getD, List.getElem?_set_self (by omega)]
    rfl
  · simp only [update_buffers]
    rw [List.getD_eq_getElem?_getD, List.getElem?_set_self (by omega)]
    rfl
  · intro i hne
    constructor <;>
      · simp only [update_buffers]
        rw [List.getD_eq_getElem?_getD, List.getElem?_set_ne (Ne.symm hne),
          ← List.getD_eq_getElem?_getD]

/-- Witness for C10 at `N = 3`, the fresh state, `t = 7`, `z = 8`, and the
untouched slot `i = 2`. -/
theorem c10_append_frame_witness :
    (update_buffers 3 (initState 3) 7 8).times.getD (initState 3).index 0 = 7 ∧
    (update_buffers 3 (initState 3) 7 8).zs.getD (initState 3).index 0 = 8 ∧
    ((update_buffers 3 (initState 3) 7 8).times.getD 2 0 = (initState 3).times.getD 2 0 ∧
      (update_buffers 3 (initState 3) 7 8).zs.getD 2 0 = (initState 3).zs.getD 2 0) ∧
    (update_buffers 3 (initState 3) 7 8).index = ((initState 3).index + 1) % 3 ∧
    snapshot_step (initState 3) = (initState 3,
      ((initState 3).times.drop (initState 3).index ++ (initState 3).times.take (initState 3).index,
        (initState 3).zs.drop (initState 3).index ++ (initState 3).zs.take (initState 3).index)) := by
  have h := c10_append_frame 3 (initState 3) 7 8 (by decide) (by decide) (by decide)
  exact ⟨h.1, h.2.1, h.2.2.1 2 (by decide), h.2.2.2.1, h.2.2.2.2⟩

/-- The SPI bus of `src/data_logger.py`, modelled by the slave's response
function: `xfer2(out)` asserts chip select for the whole call, transmits
`out`, and returns the received bytes, one per transmitted byte. -/
def xfer2 (dev : List Nat → List Nat) (out : List Nat) : List Nat := dev out

/-- Transmitted bytes of `write_reg(reg, value)` (`src/data_logger.py`
lines 19-20): `[reg & 0x7F, value]`. -/
def write_reg_out (reg value : Nat) : List Nat := [reg &&& 0x7F, value]

/-- `write_reg(reg, value)`: one `xfer2` transaction; the source discards
the received bytes (they are returned here so the transaction can be
observed). -/
def write_reg (dev : List Nat → List Nat) (reg value : Nat) : List Nat :=
  xfer2 dev (write_reg_out reg value)

/-- Transmitted bytes of `read_reg(reg, msg_len)` (`src/data_logger.py`
lines 22-24): `[reg | 0x80] + [0] * msg_len`. -/
def read_reg_out (reg msg_len : Nat) : List Nat :=
  (reg ||| 0x80) :: List.replicate msg_len 0

/-- `read_reg(reg, msg_len)` (`src/data_logger.py` lines 22-26): sends the
address byte with the read bit set followed by `msg_len` zero bytes and
returns `data`, the full received array — the address-phase byte is NOT
stripped here. -/
def read_reg (dev : List Nat → List Nat) (reg msg_len : Nat) : List Nat :=
  xfer2 dev (read_reg_out reg msg_len)

/-- Little-endian unsigned `int.from_bytes(b, byteorder="little")`. -/
def from_bytes_le (b : List Nat) : Nat := b.foldr (fun x a => x + 256 * a) 0

/-- Two's-complement reinterpretation, as in `to_signed` of `src/main.py`
lines 145-148 (and as the `signed=True` flag of `int.from_bytes`). -/
def to_signed (n bits : Nat) : Int :=
  if n ≥ 2 ^ (bits - 1) then (n : Int) - 2 ^ bits else (n : Int)

/-- `int.from_bytes(b, byteorder="little", signed=True)`. -/
def int_from_bytes_le_signed (b : List Nat) : Int :=
  to_signed (from_bytes_le b) (8 * b.length)

/-- `int.from_bytes(b, byteorder="big", signed=True)`. -/
def int_from_bytes_be_signed (b : List Nat) : Int :=
  to_signed (from_bytes_le b.reverse) (8 * b.length)

/-- Sensitivity constant `g = 0.000061` of `src/data_logger.py`
lines 34 and 40 (the ±2 g full-scale factor in g per LSB). -/
def g : ℚ := 61 / 1000000

/-- `read_accel()` (`src/data_logger.py` lines 31-35): two-byte register
read at `0x2C`, drop the address-phase byte (`data[1:]`), little-endian
signed conversion, scale by `g`. -/
def read_accel (dev : List Nat → List Nat) : ℚ :=
  let data := read_reg dev 0x2C 2
  let z := int_from_bytes_le_signed (data.drop 1)
  (z : ℚ) * g

/-- `read_accel_fpga()` (`src/data_logger.py` lines 37-41): raw two-byte
exchange (`spi.xfer2([0]*2)`), BIG-endian signed conversion, scale by
`g`. -/
def read_accel_fpga (dev : List Nat → List Nat) : ℚ :=
  let data := xfer2 dev [0, 0]
  let z := int_from_bytes_be_signed data
  (z : ℚ) * g

/-- Masking with `0x7F` is the identity on 7-bit addresses. -/
lemma land127_of_lt : ∀ r : Nat, r < 128 → r &&& 127 = r := by decide

/-- Setting the read bit on a 7-bit address adds `0x80`. -/
lemma lor128_of_lt : ∀ r : Nat, r < 128 → r ||| 128 = r + 128 := by decide

/-- The read bit is recoverably set: the address byte is ≥ `0x80` and its
low 7 bits are the original address. -/
lemma lor128_land127_of_lt : ∀ r : Nat, r < 128 → (r ||| 128) &&& 127 = r := by decide

/-- Claim C5 counterexample: on a device that answers byte `b` with
`b + 1`, `read_reg(0x2C, 2)` returns the full three-byte received array
`[173, 1, 1]` — including the address-phase byte — rather than only the
two payload bytes the claim asserts. -/
theorem c5_read_reg_keeps_dummy_byte :
    read_reg (fun out => out.map (fun b => b + 1)) 0x2C 2 = [173, 1, 1] ∧
    (read_reg (fun out => out.map (fun b => b + 1)) 0x2C 2).length ≠ 2 := by
  exact ⟨rfl, by decide⟩

/-- Claim C5 as amended: `write_reg` transmits exactly
`[addr & 0x7F, value]` (which is `[addr, value]` for a 7-bit address) in
one chip-select-gated transaction; `read_reg` transmits `[addr | 0x80]`
followed by `msg_len` zero padding bytes, but returns the ENTIRE received
array including the address-phase byte — its callers discard that byte
themselves (`read_accel` slices `data[1:]`). -/
theorem c5_register_protocol (reg value n : Nat) (dev : List Nat → List Nat)
    (hreg : reg < 128) :
    write_reg dev reg value = xfer2 dev [reg, value] ∧
    write_reg_out reg value = [reg, value] ∧
    read_reg dev reg n = xfer2 dev ((reg + 128) :: List.replicate n 0) ∧
    128 ≤ reg ||| 128 ∧ (reg ||| 128) &&& 127 = reg := by
  have h1 := land127_of_lt reg hreg
  have h2 := lor128_of_lt reg hreg
  have h3 := lor128_land127_of_lt reg hreg
  refine ⟨?_, ?_, ?_, by omega, h3⟩
  · simp only [write_reg, write_reg_out, h1]
  · simp only [write_reg_out, h1]
  · simp only [read_reg, read_reg_out, h2]

/-- Witness for C5 at `addr = 0x2C`, `value = 0xA0`, `msg_len = 2` on the
identity device. -/
theorem c5_register_protocol_witness :
    write_reg (fun l => l) 44 160 = xfer2 (fun l => l) [44, 160] ∧
    write_reg_out 44 160 = [44, 160] ∧
    read_reg (fun l => l) 44 2 = xfer2 (fun l => l) ((44 + 128) :: List.replicate 2 0) ∧
    128 ≤ 44 ||| 128 ∧ (44 ||| 128) &&& 127 = 44 :=
  c5_register_protocol 44 160 2 (fun l => l) (by decide)

/-- Claim C6 counterexample: on a device whose raw axis bytes are
`[0x01, 0x02]`, the FPGA-routed path converts big-endian
(`0x0102 = 258`), whereas the claimed little-endian interpretation of the
same raw bytes is `0x0201 = 513`; the returned physical values differ. -/
theorem c6_fpga_path_is_big_endian :
    read_accel_fpga (fun _ => [1, 2]) = (258 : ℚ) * g ∧
    (int_from_bytes_le_signed [1, 2] : ℚ) * g = (513 : ℚ) * g ∧
    read_accel_fpga (fun _ => [1, 2]) ≠ (int_from_bytes_le_signed [1, 2] : ℚ) * g := by
  refine ⟨?_, ?_, ?_⟩ <;>
    norm_num [read_accel_fpga, xfer2, int_from_bytes_be_signed, int_from_bytes_le_signed,
      from_bytes_le, to_signed, g]

/-- Claim C6 as amended: the direct register path (`read_accel`)
interprets the two payload bytes after the address-phase byte as
little-endian signed 16-bit and multiplies by the fixed factor
`g = 0.000061`; the FPGA-routed path (`read_accel_fpga`) interprets its
two raw bytes as BIG-endian signed 16-bit with the same factor. -/
theorem c6_conversion_per_path (dev dev2 : List Nat → List Nat) (d b0 b1 c0 c1 : Nat)
    (hdev : dev (read_reg_out 0x2C 2) = [d, b0, b1])
    (hdev2 : dev2 [0, 0] = [c0, c1]) :
    read_accel dev = (to_signed (b0 + 256 * b1) 16 : ℚ) * g ∧
    read_accel_fpga dev2 = (to_signed (c1 + 256 * c0) 16 : ℚ) * g := by
  constructor
  · simp only [read_accel, read_reg, xfer2, hdev, List.drop_succ_cons, List.drop_zero,
      int_from_bytes_le_signed, from_bytes_le, List.foldr_cons, List.foldr_nil,
      List.length_cons, List.length_nil]
    norm_num
  · simp only [read_accel_fpga, xfer2, hdev2, int_from_bytes_be_signed, List.reverse_cons,
      List.reverse_nil, List.nil_append, List.cons_append, from_bytes_le, List.foldr_cons,
      List.foldr_nil, List.length_cons, List.length_nil]
    norm_num

/-- Witness for C6 on devices answering `[170, 1, 2]` and `[1, 2]`. -/
theorem c6_conversion_per_path_witness :
    read_accel (fun _ => [170, 1, 2]) = (to_signed (1 + 256 * 2) 16 : ℚ) * g ∧
    read_accel_fpga (fun _ => [1, 2]) = (to_signed (2 + 256 * 1) 16 : ℚ) * g :=
  c6_conversion_per_path (fun _ => [170, 1, 2]) (fun _ => [1, 2]) 170 1 2 1 2 rfl rfl

end DataLogger

namespace Main

/-- Outcome of the body of the `try` block of `load_bitstream`
(`src/main.py` lines 48-77): constructing the FPGA object, `fpga.start()`,
opening the bitstream file and `fpga.cram(f)` either all succeed or raise
`OSError` (missing/unreadable file) or another `Exception` (configuration
error). -/
inductive LoadOutcome where
  | ok
  | osError
  | configError

/-- `load_bitstream(filename)` (`src/main.py` lines 44-77): returns `True`
when the try block completes, `False` from either `except` arm. -/
def load_bitstream : LoadOutcome → Bool
  | LoadOutcome.ok => true
  | LoadOutcome.osError => false
  | LoadOutcome.configError => false

/-- Observable startup action of the `__main__` block: invoking
`init_sensor()`. -/
inductive Event where
  | initSensor
  deriving DecidableEq

/-- The `__main__` block (`src/main.py` lines 170-179):
`success = load_bitstream("sensor_stream.bin")`, then
`if success: init_sensor()`. -/
def main_events (o : LoadOutcome) : List Event :=
  if load_bitstream o then [Event.initSensor] else []

/-- Claim C7: `init_sensor` runs exactly when `load_bitstream` reached its
success return; on either failure outcome (unreadable source or
configuration error) sensor initialization is never invoked. -/
theorem c7_sensor_setup_gated_on_configuration (o : LoadOutcome) :
    Event.initSensor ∈ main_events o ↔ o = LoadOutcome.ok := by
  cases o <;> simp [main_events, load_bitstream]

/-- One SPI register operation issued by `init_sensor`. -/
inductive BusOp where
  | write (reg val : Nat)
  | read (reg : Nat)
  deriving DecidableEq

/-- The sensor as a register file, as read by the `read_reg` helper of
`src/main.py` lines 113-118 (`spi.write([reg | 0x80])` then
`spi.read(1)`, returning the payload byte for the addressed register). -/
def read_reg (regs : Nat → Nat) (reg : Nat) : Nat := regs reg

/-- Terminal observation of `init_sensor` (`src/main.py` lines 84-163):
either the early `return` on a WHO_AM_I mismatch, or entry into the
acquisition loop. -/
inductive InitResult where
  | identityError (whoami : Nat)
  | loopStarted
  deriving DecidableEq

/-- `init_sensor()` up to the acquisition loop: software-reset write
`(0x12, 0x01)`, accelerometer configuration write `(0x10, 0x5C)`, the
WHO_AM_I read at `0x0F` compared against `0x6B`; on mismatch the function
returns before the loop, otherwise the loop's first burst read
(address `0x28`) begins. -/
def init_sensor (regs : Nat → Nat) : List BusOp × InitResult :=
  let setupOps := [BusOp.write 0x12 0x01, BusOp.write 0x10 0x5C, BusOp.read 0x0F]
  let whoami := read_reg regs 0x0F
  if whoami ≠ 0x6B then (setupOps, InitResult.identityError whoami)
  else (setupOps ++ [BusOp.read 0x28], InitResult.loopStarted)

/-- Claim C8: if the identity register does not read as the constant
`0x6B`, `init_sensor` surfaces an identity error, the acquisition loop
never starts, and no bus traffic beyond the two setup writes and the
identity read occurs. -/
theorem c8_identity_mismatch_blocks_loop (regs : Nat → Nat) (h : regs 0x0F ≠ 0x6B) :
    (init_sensor regs).2 = InitResult.identityError (regs 0x0F) ∧
    (init_sensor regs).2 ≠ InitResult.loopStarted ∧
    (init_sensor regs).1 = [BusOp.write 0x12 0x01, BusOp.write 0x10 0x5C, BusOp.read 0x0F] ∧
    BusOp.read 0x28 ∉ (init_sensor regs).1 := by
  have h2 : init_sensor regs =
      ([BusOp.write 0x12 0x01, BusOp.write 0x10 0x5C, BusOp.read 0x0F],
        InitResult.identityError (regs 0x0F)) := by
    simp only [init_sensor, read_reg, if_pos h]
  rw [h2]
  refine ⟨rfl, by simp, rfl, by simp⟩

/-- Witness for C8 on a register file that always answers `0`. -/
theorem c8_identity_mismatch_blocks_loop_witness :
    (init_sensor (fun _ => 0)).2 = InitResult.identityError 0 ∧
    (init_sensor (fun _ => 0)).2 ≠ InitResult.loopStarted ∧
    (init_sensor (fun _ => 0)).1 =
      [BusOp.write 0x12 0x01, BusOp.write 0x10 0x5C, BusOp.read 0x0F] ∧
    BusOp.read 0x28 ∉ (init_sensor (fun _ => 0)).1 :=
  c8_identity_mismatch_blocks_loop (fun _ => 0) (by decide)

end Main
